import Mathlib

/-!
Verification of the steady-state heat-conduction solver
(`src/heat_conduction/solver/driver/main.py` and `api_models.py`).

The solver works on dense 3D arrays of float64; we embed the temperature
and source fields as total functions `ℕ → ℕ → ℕ → ℚ` (rationals in place
of IEEE doubles, exact where the claims under study are exact) together
with the grid dimensions `nx, ny, nz` computed as in the script.  Python's
`int(...)` conversion (truncation toward zero) is modelled explicitly, and
the in-place triple loop of the Jacobi sweep is modelled as a left fold
over the interior index triples in loop order, so that the relationship
between the sequential in-place update and the double-buffered ("read the
snapshot only") semantics is a theorem, not an assumption.
-/

namespace HeatConduction

/-- Temperature / source field: cell values indexed by `(i, j, k)`.
Cells outside the allocated `nx × ny × nz` block are irrelevant; all
operations below only touch in-range indices, mirroring the numpy arrays. -/
abbrev Fld := ℕ → ℕ → ℕ → ℚ

/-- `np.zeros((nx, ny, nz))`. -/
def zeroField : Fld := fun _ _ _ => 0

/-- Single-cell assignment `A[a, b, c] = v`. -/
def updateAt (T : Fld) (a b c : ℕ) (v : ℚ) : Fld :=
  fun i j k => if i = a ∧ j = b ∧ k = c then v else T i j k

/-- `material_settings` entries of `api_models.py` (numeric payload). -/
structure MaterialSettings where
  xmin : ℚ
  xmax : ℚ
  ymin : ℚ
  ymax : ℚ
  zmin : ℚ
  zmax : ℚ
  thermal_conductivity : ℚ

/-- `source_setings` entries (the field name's typo is the source's). -/
structure SourceSettings where
  x : ℚ
  y : ℚ
  z : ℚ
  volumetric_heat_source : ℚ

/-- `boundary_settings` entries: face tag and fixed temperature. -/
structure BoundarySettings where
  face : String
  temperature : ℚ

/-- `grid_settings`: spacings along the three axes. -/
structure GridSettings where
  dx : ℚ
  dy : ℚ
  dz : ℚ

/-- `solver_settings`. `max_iter` is a Python `int`, hence `ℤ`. -/
structure SolverSettings where
  solver_method : String
  tolerance : ℚ
  max_iter : ℤ

/-- `setup_settings`. -/
structure SetupSettings where
  log_level : String

/-- The parsed `Simulation` document of `api_models.py`. -/
structure Simulation where
  setup_settings : SetupSettings
  material_settings : List MaterialSettings
  source_setings : List SourceSettings
  boundary_settings : List BoundarySettings
  grid_settings : GridSettings
  solver_settings : SolverSettings

/-- Python's `int(q)` on a float: truncation toward zero. -/
def truncToZero (q : ℚ) : ℤ := if 0 ≤ q then ⌊q⌋ else ⌈q⌉

/-- `nx = int((material.xmax - material.xmin) / grid.dx) + 1`. -/
def nxOf (mat : MaterialSettings) (g : GridSettings) : ℤ :=
  truncToZero ((mat.xmax - mat.xmin) / g.dx) + 1

/-- `ny = int((material.ymax - material.ymin) / grid.dy) + 1`. -/
def nyOf (mat : MaterialSettings) (g : GridSettings) : ℤ :=
  truncToZero ((mat.ymax - mat.ymin) / g.dy) + 1

/-- `nz = int((material.zmax - material.zmin) / grid.dz) + 1`. -/
def nzOf (mat : MaterialSettings) (g : GridSettings) : ℤ :=
  truncToZero ((mat.zmax - mat.zmin) / g.dz) + 1

/-- Per-axis source index: `int((coord - min) / spacing)` (main.py:110-112). -/
def srcIdx (coord mn sp : ℚ) : ℤ := truncToZero ((coord - mn) / sp)

/-- One iteration of the source-insertion loop (main.py:109-116).  The
accumulator carries the `Q` field and the list of sources that were skipped
with an out-of-bounds warning.  Note the in-bounds branch ASSIGNS
(`Q[i, j, k_] = src.volumetric_heat_source`), it does not accumulate. -/
def injectStep (mat : MaterialSettings) (grid : GridSettings) (nx ny nz : ℕ)
    (acc : Fld × List SourceSettings) (s : SourceSettings) :
    Fld × List SourceSettings :=
  let i := srcIdx s.x mat.xmin grid.dx
  let j := srcIdx s.y mat.ymin grid.dy
  let k := srcIdx s.z mat.zmin grid.dz
  if 0 ≤ i ∧ i < (nx : ℤ) ∧ 0 ≤ j ∧ j < (ny : ℤ) ∧ 0 ≤ k ∧ k < (nz : ℤ) then
    (updateAt acc.1 i.toNat j.toNat k.toNat s.volumetric_heat_source, acc.2)
  else
    (acc.1, acc.2 ++ [s])

/-- The full source-insertion loop; second component is the list of sources
that produced an "out of bounds" warning. -/
def injectSources (mat : MaterialSettings) (grid : GridSettings) (nx ny nz : ℕ)
    (srcs : List SourceSettings) (Q0 : Fld) : Fld × List SourceSettings :=
  srcs.foldl (injectStep mat grid nx ny nz) (Q0, [])

/-- One assignment `bc_map[bc.face] = bc.temperature` (main.py:122). -/
def bcStep (m : String → Option ℚ) (bc : BoundarySettings) : String → Option ℚ :=
  fun f => if f = bc.face then some bc.temperature else m f

/-- Folding the boundary list into a face map, starting from `m0`. -/
def bcFold (m0 : String → Option ℚ) (bcs : List BoundarySettings) :
    String → Option ℚ :=
  bcs.foldl bcStep m0

/-- `bc_map` after the loop at main.py:120-122 (faces never assigned map
to `none`, mirroring the `None` initialisation). -/
def bcMap (bcs : List BoundarySettings) : String → Option ℚ :=
  bcFold (fun _ => none) bcs

/-- `T[idx, :, :] = v`. -/
def stampX (idx : ℕ) (v : ℚ) (T : Fld) : Fld :=
  fun i j k => if i = idx then v else T i j k

/-- `T[:, idx, :] = v`. -/
def stampY (idx : ℕ) (v : ℚ) (T : Fld) : Fld :=
  fun i j k => if j = idx then v else T i j k

/-- `T[:, :, idx] = v`. -/
def stampZ (idx : ℕ) (v : ℚ) (T : Fld) : Fld :=
  fun i j k => if k = idx then v else T i j k

/-- `if bc_map[f] is not None: <stamp>` for one face. -/
def applyFace (T : Fld) (o : Option ℚ) (st : ℚ → Fld → Fld) : Fld :=
  match o with
  | some v => st v T
  | none => T

/-- The Dirichlet application block (main.py:123-134), in the fixed face
order xmin, xmax, ymin, ymax, zmin, zmax; `-1` indexes become `n - 1`. -/
def applyBCs (nx ny nz : ℕ) (m : String → Option ℚ) (T : Fld) : Fld :=
  let t1 := applyFace T (m "xmin") (stampX 0)
  let t2 := applyFace t1 (m "xmax") (stampX (nx - 1))
  let t3 := applyFace t2 (m "ymin") (stampY 0)
  let t4 := applyFace t3 (m "ymax") (stampY (ny - 1))
  let t5 := applyFace t4 (m "zmin") (stampZ 0)
  applyFace t5 (m "zmax") (stampZ (nz - 1))

/-- `range(1, n - 1)` of the Python interior loops. -/
def interiorList (n : ℕ) : List ℕ := List.range' 1 (n - 2)

/-- The interior index triples, in the exact nesting order of the loops
at main.py:145-147 (i outermost, k innermost). -/
def interiorTriples (nx ny nz : ℕ) : List (ℕ × ℕ × ℕ) :=
  (interiorList nx).flatMap fun i =>
    (interiorList ny).flatMap fun j =>
      (interiorList nz).map fun k => (i, j, k)

/-- All index triples of the allocated grid (for `np.max(np.abs(...))`). -/
def allTriples (nx ny nz : ℕ) : List (ℕ × ℕ × ℕ) :=
  (List.range nx).flatMap fun i =>
    (List.range ny).flatMap fun j =>
      (List.range nz).map fun k => (i, j, k)

/-- The right-hand side of the stencil assignment at main.py:150-158,
reading exclusively from the snapshot `Told`:
`(Told[i+1,j,k] + Told[i-1,j,k] + Told[i,j+1,k] + Told[i,j-1,k]
  + Told[i,j,k+1] + Told[i,j,k-1] + dx^2 * Q[i,j,k] / k) / 6`. -/
def jacobiUpdateCell (dx kc : ℚ) (Q Told : Fld) (i j k : ℕ) : ℚ :=
  (Told (i + 1) j k + Told (i - 1) j k
   + Told i (j + 1) k + Told i (j - 1) k
   + Told i j (k + 1) + Told i j (k - 1)
   + dx ^ 2 * Q i j k / kc) / 6

/-- One full sweep: `T_old = T.copy()` followed by the in-place triple loop,
modelled as a left fold over the interior triples in loop order.  Every
written value reads only `Told`, exactly as in the source. -/
def sweepLoop (dx kc : ℚ) (Q : Fld) (nx ny nz : ℕ) (Told : Fld) : Fld :=
  (interiorTriples nx ny nz).foldl
    (fun T c => updateAt T c.1 c.2.1 c.2.2 (jacobiUpdateCell dx kc Q Told c.1 c.2.1 c.2.2))
    Told

/-- `error = np.max(np.abs(T - T_old))` over the whole array (main.py:159). -/
def maxAbsDiff (nx ny nz : ℕ) (T1 T2 : Fld) : ℚ :=
  (allTriples nx ny nz).foldl
    (fun m c => max m |T1 c.1 c.2.1 c.2.2 - T2 c.1 c.2.1 c.2.2|) 0

/-- The interior-cell predicate of the sweep: `1 <= i <= nx - 2` and the
analogous bounds for `j` and `k` (Python `range(1, n - 1)`). -/
def isInterior (nx ny nz i j k : ℕ) : Prop :=
  (1 ≤ i ∧ i < nx - 1) ∧ (1 ≤ j ∧ j < ny - 1) ∧ (1 ≤ k ∧ k < nz - 1)

instance (nx ny nz i j k : ℕ) : Decidable (isInterior nx ny nz i j k) := by
  unfold isInterior; infer_instance

/-- Terminal state of the solver loop: the final field, the final value of
the Python variable `it` (which `summary.json` records as `iterations`),
and whether the loop left via the `error < tol` break. -/
structure RunResult where
  T : Fld
  it : ℕ
  converged : Bool

/-- The solver loop body (main.py:143-164).  Arguments after the grid data:
current field, current value of the variable `it`, index of the next
iteration, number of remaining iterations. -/
def runAux (dx kc tol : ℚ) (Q : Fld) (nx ny nz : ℕ) :
    Fld → ℕ → ℕ → ℕ → RunResult
  | T, itVar, _, 0 => ⟨T, itVar, false⟩
  | T, _, idx, n + 1 =>
    let T2 := sweepLoop dx kc Q nx ny nz T
    if maxAbsDiff nx ny nz T2 T < tol then ⟨T2, idx, true⟩
    else runAux dx kc tol Q nx ny nz T2 idx (idx + 1) n

/-- `it = 0; for it in range(max_iter): ...` with the break on
`error < tol`; returns the state after the loop. -/
def jacobiRun (dx kc tol : ℚ) (Q T0 : Fld) (nx ny nz maxIter : ℕ) : RunResult :=
  runAux dx kc tol Q nx ny nz T0 0 0 maxIter

/-- The interior fixed-point defect quoted in the spec:
`sum(neighbors) - 6*T[i,j,k] + dx^2*Q[i,j,k]/k`. -/
def residual (dx kc : ℚ) (Q T : Fld) (i j k : ℕ) : ℚ :=
  (T (i + 1) j k + T (i - 1) j k + T i (j + 1) k + T i (j - 1) k
   + T i j (k + 1) + T i j (k - 1))
  - 6 * T i j k + dx ^ 2 * Q i j k / kc

/-! ### The parsing layer

`Simulation.from_json` in `api_models.py` is the dataclasses-json decoder
applied to the `@dataclass` declarations: a key that is absent falls back
to the field's declared default when there is one and fails the decode when
there is not.  We model a raw JSON document section as a record of
`Option`-valued fields (`none` = key absent; a type-incorrect value is
outside this embedding and can only make the third-party decoder fail
earlier).  No numeric value is ever inspected. -/

/-- Raw `setup_settings` section. -/
structure RawSetup where
  log_level : Option String

/-- Raw material entry: the six bounds have no default, conductivity
defaults to 200. -/
structure RawMaterial where
  xmin : Option ℚ
  xmax : Option ℚ
  ymin : Option ℚ
  ymax : Option ℚ
  zmin : Option ℚ
  zmax : Option ℚ
  thermal_conductivity : Option ℚ

/-- Raw source entry: position has no default, rate defaults to 100. -/
structure RawSource where
  x : Option ℚ
  y : Option ℚ
  z : Option ℚ
  volumetric_heat_source : Option ℚ

/-- Raw boundary entry: both fields have defaults. -/
structure RawBoundary where
  face : Option String
  temperature : Option ℚ

/-- Raw grid section: all spacings default to 1. -/
structure RawGrid where
  dx : Option ℚ
  dy : Option ℚ
  dz : Option ℚ

/-- Raw solver section: method defaults to "jacobi", tolerance to 1e-4,
`max_iter` to 100. -/
structure RawSolver where
  solver_method : Option String
  tolerance : Option ℚ
  max_iter : Option ℤ

/-- Raw top-level document: all six sections are required fields. -/
structure RawSimulation where
  setup_settings : Option RawSetup
  material_settings : Option (List RawMaterial)
  source_setings : Option (List RawSource)
  boundary_settings : Option (List RawBoundary)
  grid_settings : Option RawGrid
  solver_settings : Option RawSolver

def RawSetup.parse (r : RawSetup) : SetupSettings :=
  ⟨r.log_level.getD "info"⟩

def RawMaterial.parse (r : RawMaterial) : Except String MaterialSettings :=
  match r.xmin, r.xmax, r.ymin, r.ymax, r.zmin, r.zmax with
  | some a, some b, some c, some d, some e, some f =>
    .ok ⟨a, b, c, d, e, f, r.thermal_conductivity.getD 200⟩
  | _, _, _, _, _, _ => .error "material bounds missing"

def RawSource.parse (r : RawSource) : Except String SourceSettings :=
  match r.x, r.y, r.z with
  | some a, some b, some c => .ok ⟨a, b, c, r.volumetric_heat_source.getD 100⟩
  | _, _, _ => .error "source position missing"

def RawBoundary.parse (r : RawBoundary) : BoundarySettings :=
  ⟨r.face.getD "xmin", r.temperature.getD 0⟩

def RawGrid.parse (r : RawGrid) : GridSettings :=
  ⟨r.dx.getD 1, r.dy.getD 1, r.dz.getD 1⟩

def RawSolver.parse (r : RawSolver) : SolverSettings :=
  ⟨r.solver_method.getD "jacobi", r.tolerance.getD (1/10000), r.max_iter.getD 100⟩

/-- Decode every element of a list section, failing on the first bad one. -/
def parseEach {α β : Type} (p : α → Except String β) :
    List α → Except String (List β)
  | [] => .ok []
  | x :: xs =>
    match p x, parseEach p xs with
    | .ok b, .ok bs => .ok (b :: bs)
    | .error e, _ => .error e
    | .ok _, .error e => .error e

/-- `Simulation.from_json`: all six sections must be present; list sections
decode elementwise; nothing numeric is validated. -/
def Simulation.from_json (r : RawSimulation) : Except String Simulation :=
  match r.setup_settings, r.material_settings, r.source_setings,
      r.boundary_settings, r.grid_settings, r.solver_settings with
  | some su, some ms, some ss, some bs, some gs, some sv =>
    match parseEach RawMaterial.parse ms, parseEach RawSource.parse ss with
    | .ok ms2, .ok ss2 =>
      .ok ⟨su.parse, ms2, ss2, bs.map RawBoundary.parse, gs.parse, sv.parse⟩
    | .error e, _ => .error e
    | .ok _, .error e => .error e
  | _, _, _, _, _, _ => .error "missing required section"

/-- The material fields dataclasses-json requires (those with no default). -/
def RawMaterial.complete (r : RawMaterial) : Prop :=
  r.xmin.isSome ∧ r.xmax.isSome ∧ r.ymin.isSome ∧ r.ymax.isSome
  ∧ r.zmin.isSome ∧ r.zmax.isSome

/-- The source fields dataclasses-json requires (those with no default). -/
def RawSource.complete (r : RawSource) : Prop :=
  r.x.isSome ∧ r.y.isSome ∧ r.z.isSome

/-- A present list section all of whose elements satisfy `p`. -/
def sectionComplete {α : Type} (o : Option (List α)) (p : α → Prop) : Prop :=
  match o with
  | some l => ∀ x ∈ l, p x
  | none => False

/-- Structural completeness of the document: every required key present. -/
def RawSimulation.complete (r : RawSimulation) : Prop :=
  r.setup_settings.isSome
  ∧ sectionComplete r.material_settings RawMaterial.complete
  ∧ sectionComplete r.source_setings RawSource.complete
  ∧ r.boundary_settings.isSome
  ∧ r.grid_settings.isSome
  ∧ r.solver_settings.isSome

/-- Whether a decode succeeded. -/
def exceptOk {ε α : Type} : Except ε α → Bool
  | .ok _ => true
  | .error _ => false

/-! ### Basic lemmas about cell updates and folds -/

lemma updateAt_point (T : Fld) (a b c i j k : ℕ) (v : ℚ) :
    updateAt T a b c v i j k = if (i, j, k) = (a, b, c) then v else T i j k := by
  simp [updateAt, Prod.ext_iff]

lemma updateAt_same (T : Fld) (a b c : ℕ) (v : ℚ) : updateAt T a b c v a b c = v := by
  simp [updateAt]

/-- Value of a fold of single-cell assignments, when the assigned value at a
cell does not depend on the fold state (as in the Jacobi sweep, which reads
only the snapshot): the written cells get their value, all others keep the
initial one, regardless of the order of the list. -/
lemma foldl_updateAt_apply (f : ℕ × ℕ × ℕ → ℚ) (l : List (ℕ × ℕ × ℕ)) (T0 : Fld)
    (i j k : ℕ) :
    (l.foldl (fun T c => updateAt T c.1 c.2.1 c.2.2 (f c)) T0) i j k
      = if (i, j, k) ∈ l then f (i, j, k) else T0 i j k := by
  induction l generalizing T0 with
  | nil => simp
  | cons a l ih =>
    rw [List.foldl_cons, ih]
    by_cases h : (i, j, k) ∈ l
    · simp [h]
    · by_cases h2 : (i, j, k) = a
      · rw [if_neg h, if_pos (by simp [h2]), updateAt_point, if_pos (by rw [h2]), h2]
      · rw [if_neg h, if_neg (by simp [h, h2]), updateAt_point,
          if_neg (by simpa using h2)]

lemma mem_interiorList {n m : ℕ} : m ∈ interiorList n ↔ 1 ≤ m ∧ m < n - 1 := by
  rw [interiorList, List.mem_range'_1]; omega

lemma mem_interiorTriples {nx ny nz i j k : ℕ} :
    (i, j, k) ∈ interiorTriples nx ny nz ↔ isInterior nx ny nz i j k := by
  constructor
  · intro h
    simp only [interiorTriples, List.mem_flatMap, List.mem_map] at h
    obtain ⟨a, ha, b, hb, c, hc, habc⟩ := h
    obtain ⟨rfl, rfl, rfl⟩ : i = a ∧ j = b ∧ k = c := by
      simpa [Prod.ext_iff, eq_comm] using habc
    exact ⟨mem_interiorList.mp ha, mem_interiorList.mp hb, mem_interiorList.mp hc⟩
  · rintro ⟨hi, hj, hk⟩
    simp only [interiorTriples, List.mem_flatMap, List.mem_map]
    exact ⟨i, mem_interiorList.mpr hi, j, mem_interiorList.mpr hj,
      k, mem_interiorList.mpr hk, rfl⟩

lemma mem_allTriples {nx ny nz i j k : ℕ} :
    (i, j, k) ∈ allTriples nx ny nz ↔ i < nx ∧ j < ny ∧ k < nz := by
  constructor
  · intro h
    simp only [allTriples, List.mem_flatMap, List.mem_map, List.mem_range] at h
    obtain ⟨a, ha, b, hb, c, hc, habc⟩ := h
    obtain ⟨rfl, rfl, rfl⟩ : i = a ∧ j = b ∧ k = c := by
      simpa [Prod.ext_iff, eq_comm] using habc
    exact ⟨ha, hb, hc⟩
  · rintro ⟨hi, hj, hk⟩
    simp only [allTriples, List.mem_flatMap, List.mem_map, List.mem_range]
    exact ⟨i, hi, j, hj, k, hk, rfl⟩

/-- The in-place sweep agrees pointwise with the double-buffered stencil:
interior cells get the snapshot stencil value, all other cells are untouched. -/
lemma sweepLoop_eq (dx kc : ℚ) (Q Told : Fld) (nx ny nz i j k : ℕ) :
    sweepLoop dx kc Q nx ny nz Told i j k
      = if isInterior nx ny nz i j k then jacobiUpdateCell dx kc Q Told i j k
        else Told i j k := by
  rw [sweepLoop,
    foldl_updateAt_apply (fun c => jacobiUpdateCell dx kc Q Told c.1 c.2.1 c.2.2)]
  by_cases h : isInterior nx ny nz i j k
  · rw [if_pos (mem_interiorTriples.mpr h), if_pos h]
  · rw [if_neg (fun hc => h (mem_interiorTriples.mp hc)), if_neg h]

/-! ### Lemmas about the max-abs-diff fold -/

lemma le_foldl_max (g : ℕ × ℕ × ℕ → ℚ) (l : List (ℕ × ℕ × ℕ)) (b : ℚ) :
    b ≤ l.foldl (fun m x => max m (g x)) b := by
  induction l generalizing b with
  | nil => simp
  | cons a l ih => exact le_trans (le_max_left _ _) (ih (max b (g a)))

lemma foldl_max_le (g : ℕ × ℕ × ℕ → ℚ) (l : List (ℕ × ℕ × ℕ)) (b v : ℚ)
    (hb : b ≤ v) (h : ∀ c ∈ l, g c ≤ v) :
    l.foldl (fun m x => max m (g x)) b ≤ v := by
  induction l generalizing b with
  | nil => simpa
  | cons a l ih =>
    exact ih (max b (g a)) (max_le hb (h a (List.mem_cons_self a l)))
      (fun c hc => h c (List.mem_cons_of_mem a hc))

lemma mem_le_foldl_max (g : ℕ × ℕ × ℕ → ℚ) (l : List (ℕ × ℕ × ℕ)) (b : ℚ)
    {c : ℕ × ℕ × ℕ} (hc : c ∈ l) :
    g c ≤ l.foldl (fun m x => max m (g x)) b := by
  induction l generalizing b with
  | nil => cases hc
  | cons a l ih =>
    rcases List.mem_cons.mp hc with h | h
    · subst h
      exact le_trans (le_max_right b (g c)) (le_foldl_max g l _)
    · exact ih (max b (g a)) h

lemma maxAbsDiff_nonneg (nx ny nz : ℕ) (T1 T2 : Fld) :
    0 ≤ maxAbsDiff nx ny nz T1 T2 := by
  rw [maxAbsDiff]
  have h := le_foldl_max (fun c => |T1 c.1 c.2.1 c.2.2 - T2 c.1 c.2.1 c.2.2|)
    (allTriples nx ny nz) 0
  exact h

lemma abs_sub_le_maxAbsDiff {nx ny nz i j k : ℕ} (T1 T2 : Fld)
    (hi : i < nx) (hj : j < ny) (hk : k < nz) :
    |T1 i j k - T2 i j k| ≤ maxAbsDiff nx ny nz T1 T2 := by
  rw [maxAbsDiff]
  have h := mem_le_foldl_max (fun c => |T1 c.1 c.2.1 c.2.2 - T2 c.1 c.2.1 c.2.2|)
    (allTriples nx ny nz) 0 (mem_allTriples.mpr ⟨hi, hj, hk⟩)
  exact h

lemma maxAbsDiff_le {nx ny nz : ℕ} {T1 T2 : Fld} {v : ℚ} (h0 : 0 ≤ v)
    (h : ∀ i j k, i < nx → j < ny → k < nz → |T1 i j k - T2 i j k| ≤ v) :
    maxAbsDiff nx ny nz T1 T2 ≤ v := by
  rw [maxAbsDiff]
  have key := foldl_max_le (fun c => |T1 c.1 c.2.1 c.2.2 - T2 c.1 c.2.1 c.2.2|)
    (allTriples nx ny nz) 0 v h0 (fun c hc => by
      obtain ⟨i, j, k⟩ := c
      obtain ⟨hi, hj, hk⟩ := mem_allTriples.mp hc
      exact h i j k hi hj hk)
  exact key

lemma maxAbsDiff_self (nx ny nz : ℕ) (T : Fld) : maxAbsDiff nx ny nz T T = 0 :=
  le_antisymm (maxAbsDiff_le le_rfl (fun i j k _ _ _ => by simp))
    (maxAbsDiff_nonneg nx ny nz T T)

/-! ### Lemmas about the solver loop -/

/-- A grid with fewer than 3 cells along some axis has no interior triples:
the Python loops `range(1, n - 1)` are empty. -/
lemma interiorTriples_eq_nil {nx ny nz : ℕ} (h : nx < 3 ∨ ny < 3 ∨ nz < 3) :
    interiorTriples nx ny nz = [] := by
  rw [List.eq_nil_iff_forall_not_mem]
  rintro ⟨i, j, k⟩ hc
  have := mem_interiorTriples.mp hc
  unfold isInterior at this
  omega

lemma sweepLoop_degenerate {nx ny nz : ℕ} (h : nx < 3 ∨ ny < 3 ∨ nz < 3)
    (dx kc : ℚ) (Q Told : Fld) :
    sweepLoop dx kc Q nx ny nz Told = Told := by
  rw [sweepLoop, interiorTriples_eq_nil h, List.foldl_nil]

/-- If the loop runs out of iterations without the `error < tol` break ever
firing, the final value of `it` is the index of the last executed iteration. -/
lemma runAux_not_converged_it (dx kc tol : ℚ) (Q : Fld) (nx ny nz : ℕ) :
    ∀ (n : ℕ) (T : Fld) (itVar idx : ℕ),
      (runAux dx kc tol Q nx ny nz T itVar idx n).converged = false →
      (runAux dx kc tol Q nx ny nz T itVar idx n).it
        = if n = 0 then itVar else idx + n - 1 := by
  intro n
  induction n with
  | zero => intro T itVar idx _; rfl
  | succ n ih =>
    intro T itVar idx hconv
    rw [runAux] at hconv ⊢
    by_cases hlt :
        maxAbsDiff nx ny nz (sweepLoop dx kc Q nx ny nz T) T < tol
    · rw [if_pos hlt] at hconv
      cases hconv
    · rw [if_neg hlt] at hconv ⊢
      rw [ih _ idx (idx + 1) hconv]
      by_cases hn : n = 0
      · subst hn; simp
      · rw [if_neg hn, if_neg (Nat.succ_ne_zero n)]
        omega

/-! ### Lemmas about the parsing layer -/

lemma parseEach_ok {α β : Type} (p : α → Except String β) (l : List α)
    (h : ∀ x ∈ l, ∃ b, p x = .ok b) :
    ∃ bs, parseEach p l = .ok bs := by
  induction l with
  | nil => exact ⟨[], rfl⟩
  | cons x xs ih =>
    obtain ⟨b, hb⟩ := h x (List.mem_cons_self x xs)
    obtain ⟨bs, hbs⟩ := ih (fun y hy => h y (List.mem_cons_of_mem x hy))
    exact ⟨b :: bs, by rw [parseEach, hb, hbs]⟩

lemma rawMaterial_parse_ok (m : RawMaterial) (h : m.complete) :
    ∃ v, m.parse = .ok v := by
  obtain ⟨h1, h2, h3, h4, h5, h6⟩ := h
  obtain ⟨a, ha⟩ := Option.isSome_iff_exists.mp h1
  obtain ⟨b, hb⟩ := Option.isSome_iff_exists.mp h2
  obtain ⟨c, hc⟩ := Option.isSome_iff_exists.mp h3
  obtain ⟨d, hd⟩ := Option.isSome_iff_exists.mp h4
  obtain ⟨e, he⟩ := Option.isSome_iff_exists.mp h5
  obtain ⟨f, hf⟩ := Option.isSome_iff_exists.mp h6
  exact ⟨_, by rw [RawMaterial.parse, ha, hb, hc, hd, he, hf]⟩

lemma rawSource_parse_ok (s : RawSource) (h : s.complete) :
    ∃ v, s.parse = .ok v := by
  obtain ⟨h1, h2, h3⟩ := h
  obtain ⟨a, ha⟩ := Option.isSome_iff_exists.mp h1
  obtain ⟨b, hb⟩ := Option.isSome_iff_exists.mp h2
  obtain ⟨c, hc⟩ := Option.isSome_iff_exists.mp h3
  exact ⟨_, by rw [RawSource.parse, ha, hb, hc]⟩

lemma from_json_somes (su : RawSetup) (ms : List RawMaterial)
    (ss : List RawSource) (bs : List RawBoundary) (gs : RawGrid)
    (sv : RawSolver) :
    Simulation.from_json ⟨some su, some ms, some ss, some bs, some gs, some sv⟩
      = match parseEach RawMaterial.parse ms, parseEach RawSource.parse ss with
        | .ok ms2, .ok ss2 =>
          .ok ⟨su.parse, ms2, ss2, bs.map RawBoundary.parse, gs.parse, sv.parse⟩
        | .error e, _ => .error e
        | .ok _, .error e => .error e := rfl

/-! ### Lemmas about the boundary-condition map -/

lemma bcFold_congr_at (f : String) :
    ∀ (l : List BoundarySettings) (m0 m1 : String → Option ℚ),
      m0 f = m1 f → bcFold m0 l f = bcFold m1 l f := by
  intro l
  induction l with
  | nil => intro m0 m1 h; exact h
  | cons a l ih =>
    intro m0 m1 h
    simp only [bcFold, List.foldl_cons] at *
    refine ih (bcStep m0 a) (bcStep m1 a) ?_
    rw [bcStep, bcStep]
    by_cases hf : f = a.face
    · rw [if_pos hf, if_pos hf]
    · rw [if_neg hf, if_neg hf]; exact h

lemma bcFold_filter_at {b : BoundarySettings} (f : String) (hf : f ≠ b.face) :
    ∀ (l : List BoundarySettings) (m0 : String → Option ℚ),
      bcFold m0 (l.filter (fun x => x.face != b.face)) f = bcFold m0 l f := by
  intro l
  induction l with
  | nil => intro m0; rfl
  | cons a l ih =>
    intro m0
    by_cases ha : a.face = b.face
    · rw [List.filter_cons_of_neg (by simp [ha])]
      rw [ih m0]
      simp only [bcFold, List.foldl_cons]
      refine bcFold_congr_at f l m0 (bcStep m0 a) ?_
      rw [bcStep, if_neg (fun hfa => hf (hfa.trans ha))]
    · rw [List.filter_cons_of_pos (by simp [ha])]
      simp only [bcFold, List.foldl_cons]
      exact ih (bcStep m0 a)

lemma bcMap_append_last (bcs : List BoundarySettings) (b : BoundarySettings) :
    bcMap (bcs ++ [b]) = bcStep (bcMap bcs) b := by
  rw [bcMap, bcFold, List.foldl_append]
  rfl

/-! ### Concrete scenarios used as witnesses and counterexamples -/

/-- Material box `[0, 2]^3` with conductivity 1; with unit spacing this
yields the minimal 3 x 3 x 3 grid. -/
def mat3 : MaterialSettings := ⟨0, 2, 0, 2, 0, 2, 1⟩

/-- Unit grid spacing along every axis. -/
def grid1 : GridSettings := ⟨1, 1, 1⟩

/-- First of two sources aimed at cell (1,1,1): rate 5. -/
def srcA : SourceSettings := ⟨1, 1, 1, 5⟩

/-- Second source aimed at the same cell (1,1,1): rate 7. -/
def srcB : SourceSettings := ⟨1, 1, 1, 7⟩

/-- A source slightly outside the domain on the low-x side. -/
def srcLow : SourceSettings := ⟨-1/2, 1, 1, 9⟩

/-! ### Claim theorems -/

/-- Claim C1: in every Jacobi sweep the solver behaves exactly as a
double-buffered update of the snapshot: each interior cell
(`1 <= i <= nx-2` and analogously for `j`, `k`) receives
`(sum of the six face neighbours of the snapshot + dx^2 * Q[i,j,k] / k) / 6`,
reading only snapshot values, while every non-interior (boundary-face) cell
is never written and keeps the value left by the boundary application.
The left side is the sequential in-place loop, the right side reads only
the snapshot `Told`. -/
theorem c1_jacobi_sweep_snapshot (dx kc : ℚ) (Q Told : Fld) (nx ny nz i j k : ℕ) :
    sweepLoop dx kc Q nx ny nz Told i j k
      = if isInterior nx ny nz i j k then
          (Told (i + 1) j k + Told (i - 1) j k
           + Told i (j + 1) k + Told i (j - 1) k
           + Told i j (k + 1) + Told i j (k - 1)
           + dx ^ 2 * Q i j k / kc) / 6
        else Told i j k := by
  rw [sweepLoop_eq]
  rfl

/-- Claim C3 (counterexample): source injection is NOT additive.  Two
sources with rates 5 and 7 mapping to the same cell (1,1,1) of the
3 x 3 x 3 grid leave `Q[1,1,1] = 7`, the rate of the later source,
not the sum 12. -/
theorem c3_counterexample :
    (injectSources mat3 grid1 3 3 3 [srcA, srcB] zeroField).1 1 1 1 = 7 ∧
    ((7 : ℚ) ≠ 5 + 7) := by
  constructor
  · norm_num [injectSources, injectStep, srcA, srcB, srcIdx, truncToZero,
      updateAt, mat3, grid1, zeroField, List.foldl_cons, List.foldl_nil]
  · norm_num

/-- Claim C3 (amended): injection assigns rather than accumulates, so for
any list of sources the cell targeted by an in-bounds source `s` appended
last holds exactly `s`'s rate, whatever earlier sources wrote there. -/
theorem c3_amended_last_source_wins (mat : MaterialSettings) (grid : GridSettings)
    (nx ny nz : ℕ) (l : List SourceSettings) (s : SourceSettings) (Q0 : Fld)
    (hx0 : 0 ≤ srcIdx s.x mat.xmin grid.dx)
    (hx1 : srcIdx s.x mat.xmin grid.dx < (nx : ℤ))
    (hy0 : 0 ≤ srcIdx s.y mat.ymin grid.dy)
    (hy1 : srcIdx s.y mat.ymin grid.dy < (ny : ℤ))
    (hz0 : 0 ≤ srcIdx s.z mat.zmin grid.dz)
    (hz1 : srcIdx s.z mat.zmin grid.dz < (nz : ℤ)) :
    (injectSources mat grid nx ny nz (l ++ [s]) Q0).1
      (srcIdx s.x mat.xmin grid.dx).toNat
      (srcIdx s.y mat.ymin grid.dy).toNat
      (srcIdx s.z mat.zmin grid.dz).toNat
      = s.volumetric_heat_source := by
  rw [injectSources, List.foldl_append, List.foldl_cons, List.foldl_nil]
  rw [injectStep]
  rw [if_pos ⟨hx0, hx1, hy0, hy1, hz0, hz1⟩]
  exact updateAt_same _ _ _ _ _

/-- Claim C3 (witness): the amended statement evaluated on the two
same-cell sources of the counterexample. -/
theorem c3_witness :
    (injectSources mat3 grid1 3 3 3 ([srcA] ++ [srcB]) zeroField).1
      (srcIdx srcB.x mat3.xmin grid1.dx).toNat
      (srcIdx srcB.y mat3.ymin grid1.dy).toNat
      (srcIdx srcB.z mat3.zmin grid1.dz).toNat
      = srcB.volumetric_heat_source :=
  c3_amended_last_source_wins mat3 grid1 3 3 3 [srcA] srcB zeroField
    (by norm_num [srcIdx, truncToZero, srcB, mat3, grid1])
    (by norm_num [srcIdx, truncToZero, srcB, mat3, grid1])
    (by norm_num [srcIdx, truncToZero, srcB, mat3, grid1])
    (by norm_num [srcIdx, truncToZero, srcB, mat3, grid1])
    (by norm_num [srcIdx, truncToZero, srcB, mat3, grid1])
    (by norm_num [srcIdx, truncToZero, srcB, mat3, grid1])

/-- Claim C4 (counterexample): the per-axis index is NOT the nearest
integer.  For `(coord - min) / spacing = 7/4` the code computes index 1
(truncation), while rounding would give 2. -/
theorem c4_counterexample :
    srcIdx (7/4) 0 1 = 1 ∧ round (((7 : ℚ)/4 - 0) / 1) = 2 ∧ (1 : ℤ) ≠ 2 := by
  refine ⟨?_, ?_, by decide⟩
  · norm_num [srcIdx, truncToZero]
  · norm_num [round_eq]

/-- Claim C4 (amended): the per-axis index is Python `int(...)`, i.e.
truncation toward zero of `(coord - min) / spacing`; for coordinates at or
above the axis minimum (positive spacing) this is the floor of the
quotient, not the nearest integer. -/
theorem c4_amended_truncation (coord mn sp : ℚ) (h1 : 0 < sp) (h2 : mn ≤ coord) :
    srcIdx coord mn sp = ⌊(coord - mn) / sp⌋ := by
  rw [srcIdx, truncToZero, if_pos (div_nonneg (by linarith) h1.le)]

/-- Claim C4 (witness): the amended statement at `coord = 7/4`. -/
theorem c4_witness : srcIdx (7/4) 0 1 = ⌊((7 : ℚ)/4 - 0) / 1⌋ :=
  c4_amended_truncation (7/4) 0 1 (by norm_num) (by norm_num)

/-- Claim C9: a source with `xmin - dx < x < xmin` (slightly outside the
domain on the low side) gets x-index 0 from the truncation toward zero,
passes the in-bounds check, and is injected into the boundary cell
`i = 0` with no out-of-bounds warning recorded. -/
theorem c9_low_side_source (mat : MaterialSettings) (grid : GridSettings)
    (nx ny nz : ℕ) (s : SourceSettings) (Q0 : Fld)
    (hdx : 0 < grid.dx) (hlo : mat.xmin - grid.dx < s.x) (hhi : s.x < mat.xmin)
    (hnx : 1 ≤ nx)
    (hy0 : 0 ≤ srcIdx s.y mat.ymin grid.dy)
    (hy1 : srcIdx s.y mat.ymin grid.dy < (ny : ℤ))
    (hz0 : 0 ≤ srcIdx s.z mat.zmin grid.dz)
    (hz1 : srcIdx s.z mat.zmin grid.dz < (nz : ℤ)) :
    srcIdx s.x mat.xmin grid.dx = 0 ∧
    (injectSources mat grid nx ny nz [s] Q0).1 0
      (srcIdx s.y mat.ymin grid.dy).toNat
      (srcIdx s.z mat.zmin grid.dz).toNat
      = s.volumetric_heat_source ∧
    (injectSources mat grid nx ny nz [s] Q0).2 = [] := by
  have hq1 : (s.x - mat.xmin) / grid.dx < 0 :=
    div_neg_of_neg_of_pos (by linarith) hdx
  have hq2 : (-1 : ℚ) < (s.x - mat.xmin) / grid.dx := by
    have hne : -grid.dx / grid.dx = -1 := by
      rw [neg_div, div_self (ne_of_gt hdx)]
    have hstep : -grid.dx / grid.dx < (s.x - mat.xmin) / grid.dx :=
      (div_lt_div_iff_of_pos_right hdx).mpr (by linarith)
    linarith
  have hidx : srcIdx s.x mat.xmin grid.dx = 0 := by
    rw [srcIdx, truncToZero, if_neg (not_le.mpr hq1)]
    exact Int.ceil_eq_zero_iff.mpr ⟨hq2, hq1.le⟩
  refine ⟨hidx, ?_, ?_⟩
  · simp only [injectSources, List.foldl_cons, List.foldl_nil, injectStep, hidx]
    rw [if_pos ⟨le_refl 0, by exact_mod_cast hnx, hy0, hy1, hz0, hz1⟩]
    simp [updateAt_same]
  · simp only [injectSources, List.foldl_cons, List.foldl_nil, injectStep, hidx]
    rw [if_pos ⟨le_refl 0, by exact_mod_cast hnx, hy0, hy1, hz0, hz1⟩]

/-- Claim C9 (witness): a source at `x = -1/2` just below the `[0,2]^3`
box with unit spacing lands in boundary cell `(0, 1, 1)` silently. -/
theorem c9_witness :
    srcIdx srcLow.x mat3.xmin grid1.dx = 0 ∧
    (injectSources mat3 grid1 3 3 3 [srcLow] zeroField).1 0
      (srcIdx srcLow.y mat3.ymin grid1.dy).toNat
      (srcIdx srcLow.z mat3.zmin grid1.dz).toNat
      = srcLow.volumetric_heat_source ∧
    (injectSources mat3 grid1 3 3 3 [srcLow] zeroField).2 = [] :=
  c9_low_side_source mat3 grid1 3 3 3 srcLow zeroField
    (by norm_num [grid1])
    (by norm_num [mat3, grid1, srcLow])
    (by norm_num [mat3, srcLow])
    (by norm_num)
    (by norm_num [srcIdx, truncToZero, srcLow, mat3, grid1])
    (by norm_num [srcIdx, truncToZero, srcLow, mat3, grid1])
    (by norm_num [srcIdx, truncToZero, srcLow, mat3, grid1])
    (by norm_num [srcIdx, truncToZero, srcLow, mat3, grid1])

/-- Claim C10: when several boundary entries name the same face, the last
one in list order provides the temperature recorded for that face, and the
final field is the same as if the earlier entries for that face were
absent: they have no effect. -/
theorem c10_last_boundary_entry_wins (nx ny nz : ℕ) (T0 : Fld)
    (bcs : List BoundarySettings) (b : BoundarySettings) :
    bcMap (bcs ++ [b]) b.face = some b.temperature ∧
    applyBCs nx ny nz (bcMap (bcs ++ [b])) T0
      = applyBCs nx ny nz (bcMap (bcs.filter (fun x => x.face != b.face) ++ [b])) T0 := by
  have hmap : bcMap (bcs ++ [b])
      = bcMap (bcs.filter (fun x => x.face != b.face) ++ [b]) := by
    funext f
    rw [bcMap_append_last, bcMap_append_last]
    by_cases hf : f = b.face
    · rw [bcStep, bcStep, if_pos hf, if_pos hf]
    · rw [bcStep, bcStep, if_neg hf, if_neg hf]
      exact (bcFold_filter_at f hf bcs (fun _ => none)).symm
  refine ⟨?_, by rw [hmap]⟩
  rw [bcMap_append_last, bcStep, if_pos rfl]

/-- A source of rate 600 aimed at the single interior cell of the
3 x 3 x 3 grid: the first sweep changes that cell by 100. -/
def srcHot : SourceSettings := ⟨1, 1, 1, 600⟩

/-- The source field produced by injecting `srcHot` into the 3 x 3 x 3 grid. -/
def Qhot : Fld := (injectSources mat3 grid1 3 3 3 [srcHot] zeroField).1

/-- Claim C2 (counterexample): with `max_iter = 1`, `tol = 1` and the
nontrivial source `srcHot`, the first sweep's error is 100, the run does
not converge, and `summary.json` records `iterations = 0`, not
`max_iter = 1`: the recorded count is the 0-based index of the last sweep. -/
theorem c2_counterexample :
    (jacobiRun 1 1 1 Qhot zeroField 3 3 3 1).converged = false ∧
    (jacobiRun 1 1 1 Qhot zeroField 3 3 3 1).it = 0 ∧ (0 : ℕ) ≠ 1 := by
  refine ⟨?_, ?_, by decide⟩ <;>
    norm_num [jacobiRun, runAux, sweepLoop, interiorTriples, interiorList,
      allTriples, maxAbsDiff, jacobiUpdateCell, updateAt, zeroField, Qhot,
      injectSources, injectStep, srcHot, mat3, grid1, srcIdx, truncToZero,
      List.range, List.range', List.flatMap, List.foldl, abs, max_def]

/-- Claim C2 (amended): if the error never drops below `tol` within
`max_iter` sweeps, the run ends unconverged and the iteration count the
summary records is `max_iter - 1` (the 0-based index of the last executed
sweep), not `max_iter`. -/
theorem c2_amended_iterations_cap (dx kc tol : ℚ) (Q T0 : Fld)
    (nx ny nz maxIter : ℕ) (hm : 1 ≤ maxIter)
    (hnc : (jacobiRun dx kc tol Q T0 nx ny nz maxIter).converged = false) :
    (jacobiRun dx kc tol Q T0 nx ny nz maxIter).it = maxIter - 1 := by
  rw [jacobiRun] at hnc ⊢
  rw [runAux_not_converged_it dx kc tol Q nx ny nz maxIter T0 0 0 hnc,
    if_neg (by omega)]
  omega

/-- Claim C2 (witness): the amended statement on the `max_iter = 1` run of
the counterexample scenario: `iterations = 1 - 1 = 0`. -/
theorem c2_witness : (jacobiRun 1 1 1 Qhot zeroField 3 3 3 1).it = 1 - 1 :=
  c2_amended_iterations_cap 1 1 1 Qhot zeroField 3 3 3 1 (by norm_num)
    (by norm_num [jacobiRun, runAux, sweepLoop, interiorTriples, interiorList,
      allTriples, maxAbsDiff, jacobiUpdateCell, updateAt, zeroField, Qhot,
      injectSources, injectStep, srcHot, mat3, grid1, srcIdx, truncToZero,
      List.range, List.range', List.flatMap, List.foldl, abs, max_def])

/-- Material box `[0, 1]^3`: with unit spacing the derived dimensions are
`nx = ny = nz = 2 < 3`, a degenerate grid with no interior cell. -/
def matSmall : MaterialSettings := ⟨0, 1, 0, 1, 0, 1, 1⟩

/-- Claim C6 (counterexample): the computed dimension for the `[0,1]^3`
box with unit spacing is 2 < 3, yet nothing fails: the solver run on the
2 x 2 x 2 grid proceeds, its interior loops are empty, and it reports
convergence at iteration 0 — no `DomainError` exists anywhere. -/
theorem c6_counterexample :
    nxOf matSmall grid1 = 2 ∧ ¬(3 ≤ nxOf matSmall grid1) ∧
    (jacobiRun 1 1 (1/10) zeroField zeroField 2 2 2 5).converged = true ∧
    (jacobiRun 1 1 (1/10) zeroField zeroField 2 2 2 5).it = 0 := by
  refine ⟨?_, ?_, ?_, ?_⟩ <;>
    norm_num [nxOf, truncToZero, matSmall, grid1, jacobiRun, runAux,
      sweepLoop, interiorTriples, interiorList, allTriples, maxAbsDiff,
      jacobiUpdateCell, updateAt, zeroField, List.range, List.range',
      List.flatMap, List.foldl, abs, max_def]

/-- Claim C6 (amended): there is no dimension check and no `DomainError`:
whenever some dimension is < 3 the run still proceeds to the solver, whose
interior loops are empty, so the very first sweep changes nothing and the
loop exits via the `error < tol` break at iteration 0 with the field
unchanged. -/
theorem c6_amended_degenerate_grid (dx kc tol : ℚ) (Q T0 : Fld)
    (nx ny nz maxIter : ℕ) (hdim : nx < 3 ∨ ny < 3 ∨ nz < 3)
    (htol : 0 < tol) (hm : 1 ≤ maxIter) :
    (jacobiRun dx kc tol Q T0 nx ny nz maxIter).T = T0 ∧
    (jacobiRun dx kc tol Q T0 nx ny nz maxIter).it = 0 ∧
    (jacobiRun dx kc tol Q T0 nx ny nz maxIter).converged = true := by
  obtain ⟨n, rfl⟩ : ∃ n, maxIter = n + 1 := ⟨maxIter - 1, by omega⟩
  simp only [jacobiRun, runAux, sweepLoop_degenerate hdim, maxAbsDiff_self,
    if_pos htol]
  simp

/-- Claim C6 (witness): the amended statement on the degenerate
2 x 2 x 2 run. -/
lemma abs_add6 (a1 a2 a3 a4 a5 a6 : ℚ) :
    |a1 + a2 + a3 + a4 + a5 + a6| ≤ |a1| + |a2| + |a3| + |a4| + |a5| + |a6| := by
  calc |a1 + a2 + a3 + a4 + a5 + a6|
      ≤ |a1 + a2 + a3 + a4 + a5| + |a6| := abs_add _ _
    _ ≤ |a1 + a2 + a3 + a4| + |a5| + |a6| :=
      add_le_add_right (abs_add _ _) _
    _ ≤ |a1 + a2 + a3| + |a4| + |a5| + |a6| :=
      add_le_add_right (add_le_add_right (abs_add _ _) _) _
    _ ≤ |a1 + a2| + |a3| + |a4| + |a5| + |a6| :=
      add_le_add_right (add_le_add_right (add_le_add_right (abs_add _ _) _) _) _
    _ ≤ |a1| + |a2| + |a3| + |a4| + |a5| + |a6| :=
      add_le_add_right (add_le_add_right (add_le_add_right
        (add_le_add_right (abs_add _ _) _) _) _) _

/-- Material box `[0,4] x [0,2] x [0,2]`: a 5 x 3 x 3 grid at unit spacing. -/
def matWide : MaterialSettings := ⟨0, 4, 0, 2, 0, 2, 1⟩

/-- Source of rate 12 at interior cell (1,1,1) of the 5 x 3 x 3 grid. -/
def srcL : SourceSettings := ⟨1, 1, 1, 12⟩

/-- Source of rate 12 at interior cell (3,1,1) of the 5 x 3 x 3 grid. -/
def srcR : SourceSettings := ⟨3, 1, 1, 12⟩

/-- The source field with rate 12 in cells (1,1,1) and (3,1,1). -/
def Qpair : Fld := (injectSources matWide grid1 5 3 3 [srcL, srcR] zeroField).1

lemma Qpair_eq : Qpair = updateAt (updateAt zeroField 1 1 1 12) 3 1 1 12 := by
  simp only [Qpair, injectSources, List.foldl_cons, List.foldl_nil,
    injectStep, srcL, srcR, matWide, grid1]
  norm_num [srcIdx, truncToZero]
  simp [Int.toNat_ofNat]

set_option maxHeartbeats 1000000 in
set_option maxRecDepth 4000 in
/-- Claim C8 (counterexample): convergence does NOT bound the interior
residual by `tol`.  With `tol = 3` the run on the 5 x 3 x 3 grid with the
two rate-12 sources converges on its first sweep (error 2 < 3), yet at the
interior cell (2,1,1) of the final field the residual is 4 > 3: both
x-neighbours of that cell moved by 2 in the converged sweep. -/
theorem c8_counterexample :
    (jacobiRun 1 1 3 Qpair zeroField 5 3 3 1).converged = true ∧
    isInterior 5 3 3 2 1 1 ∧
    ¬(|residual 1 1 Qpair (jacobiRun 1 1 3 Qpair zeroField 5 3 3 1).T 2 1 1| ≤ 3) := by
  refine ⟨?_, by decide, ?_⟩ <;>
    norm_num [jacobiRun, runAux, sweepLoop, interiorTriples, interiorList,
      allTriples, maxAbsDiff, jacobiUpdateCell, updateAt, zeroField, Qpair_eq,
      residual, List.range, List.range', List.flatMap,
      List.foldl, abs, max_def]

/-- Claim C8 (amended): when a sweep's error falls below `tol` (the
convergence break), every interior cell of the final field satisfies
`|sum(neighbors) - 6*T[i,j,k] + dx^2*Q[i,j,k]/k| < 6*tol` — six times the
claimed bound, one `tol` per neighbour that may still have moved in the
converged sweep; the factor cannot be dropped (see the counterexample). -/
theorem c8_amended_residual_bound (dx kc tol : ℚ) (Q Told : Fld)
    (nx ny nz i j k : ℕ)
    (hint : isInterior nx ny nz i j k)
    (hconv : maxAbsDiff nx ny nz (sweepLoop dx kc Q nx ny nz Told) Told < tol) :
    |residual dx kc Q (sweepLoop dx kc Q nx ny nz Told) i j k| < 6 * tol := by
  set S := sweepLoop dx kc Q nx ny nz Told with hS
  obtain ⟨⟨hi1, hi2⟩, ⟨hj1, hj2⟩, ⟨hk1, hk2⟩⟩ := hint
  have hctr : S i j k
      = (Told (i + 1) j k + Told (i - 1) j k
         + Told i (j + 1) k + Told i (j - 1) k
         + Told i j (k + 1) + Told i j (k - 1)
         + dx ^ 2 * Q i j k / kc) / 6 := by
    rw [hS, sweepLoop_eq, if_pos ⟨⟨hi1, hi2⟩, ⟨hj1, hj2⟩, ⟨hk1, hk2⟩⟩]
    rfl
  have hb : ∀ a b c : ℕ, a < nx → b < ny → c < nz →
      |S a b c - Told a b c| < tol :=
    fun a b c ha hbb hc =>
      lt_of_le_of_lt (abs_sub_le_maxAbsDiff S Told ha hbb hc) hconv
  have e1 := hb (i + 1) j k (by omega) (by omega) (by omega)
  have e2 := hb (i - 1) j k (by omega) (by omega) (by omega)
  have e3 := hb i (j + 1) k (by omega) (by omega) (by omega)
  have e4 := hb i (j - 1) k (by omega) (by omega) (by omega)
  have e5 := hb i j (k + 1) (by omega) (by omega) (by omega)
  have e6 := hb i j (k - 1) (by omega) (by omega) (by omega)
  have hres : residual dx kc Q S i j k
      = (S (i + 1) j k - Told (i + 1) j k) + (S (i - 1) j k - Told (i - 1) j k)
      + (S i (j + 1) k - Told i (j + 1) k) + (S i (j - 1) k - Told i (j - 1) k)
      + (S i j (k + 1) - Told i j (k + 1)) + (S i j (k - 1) - Told i j (k - 1)) := by
    rw [residual, hctr]
    ring
  rw [hres]
  refine lt_of_le_of_lt (abs_add6 _ _ _ _ _ _) ?_
  linarith

set_option maxHeartbeats 1000000 in
set_option maxRecDepth 4000 in
/-- Claim C8 (witness): the amended bound evaluated on the first (and
converged) sweep of the counterexample scenario: the residual 4 at cell
(2,1,1) is indeed below `6 * tol = 18`. -/
theorem c8_witness :
    |residual 1 1 Qpair (sweepLoop 1 1 Qpair 5 3 3 zeroField) 2 1 1| < 6 * 3 :=
  c8_amended_residual_bound 1 1 3 Qpair zeroField 5 3 3 2 1 1 (by decide)
    (by norm_num [sweepLoop, interiorTriples, interiorList, allTriples,
      maxAbsDiff, jacobiUpdateCell, updateAt, zeroField, Qpair_eq,
      List.range, List.range', List.flatMap, List.foldl,
      abs, max_def])

theorem c6_witness :
    (jacobiRun 1 1 (1/10) zeroField zeroField 2 2 2 5).T = zeroField ∧
    (jacobiRun 1 1 (1/10) zeroField zeroField 2 2 2 5).it = 0 ∧
    (jacobiRun 1 1 (1/10) zeroField zeroField 2 2 2 5).converged = true :=
  c6_amended_degenerate_grid 1 1 (1/10) zeroField zeroField 2 2 2 5
    (Or.inl (by norm_num)) (by norm_num) (by norm_num)

/-- A structurally complete document whose numbers are all invalid in the
sense of the claim: conductivity -1, `dx = 0`, `tolerance = 0`,
`max_iter = 0`. -/
def badDoc : RawSimulation :=
  ⟨some ⟨some "info"⟩,
   some [⟨some 0, some 2, some 0, some 2, some 0, some 2, some (-1)⟩],
   some [],
   some [],
   some ⟨some 0, some 1, some 1⟩,
   some ⟨some "jacobi", some 0, some 0⟩⟩

/-- What `badDoc` decodes to. -/
def badSim : Simulation :=
  ⟨⟨"info"⟩, [⟨0, 2, 0, 2, 0, 2, -1⟩], [], [], ⟨0, 1, 1⟩, ⟨"jacobi", 0, 0⟩⟩

/-- Claim C5 (counterexample): parsing does NOT fail on numerically invalid
input.  The document with conductivity -1 <= 0, spacing `dx = 0`,
tolerance 0 and `max_iter = 0 < 1` decodes successfully into a model
carrying exactly those values: no numeric validation exists and no
`ConfigError` type exists in the code. -/
theorem c5_counterexample :
    Simulation.from_json badDoc = .ok badSim ∧
    Option.map MaterialSettings.thermal_conductivity
      badSim.material_settings.head? = some (-1) ∧
    ((-1 : ℚ) ≤ 0) ∧
    badSim.grid_settings.dx ≤ 0 ∧
    badSim.solver_settings.tolerance ≤ 0 ∧
    badSim.solver_settings.max_iter < 1 := by
  refine ⟨rfl, rfl, by norm_num, ?_, ?_, ?_⟩ <;> norm_num [badSim]

/-- Claim C5 (amended): the decode enforces only the structural schema:
every structurally complete document — whatever its numeric values, in
particular conductivity <= 0, spacing <= 0, tolerance <= 0 or
`max_iter < 1` — yields a model; decoding fails only when a required key
is missing. -/
theorem c5_amended_no_numeric_validation (r : RawSimulation)
    (h : RawSimulation.complete r) :
    exceptOk (Simulation.from_json r) = true := by
  obtain ⟨h1, h2, h3, h4, h5, h6⟩ := h
  obtain ⟨su, hsu⟩ := Option.isSome_iff_exists.mp h1
  obtain ⟨bs, hbs⟩ := Option.isSome_iff_exists.mp h4
  obtain ⟨gs, hgs⟩ := Option.isSome_iff_exists.mp h5
  obtain ⟨sv, hsv⟩ := Option.isSome_iff_exists.mp h6
  rcases hms : r.material_settings with _ | ms
  · simp only [hms, sectionComplete] at h2
  rcases hss : r.source_setings with _ | ss
  · simp only [hss, sectionComplete] at h3
  simp only [hms, sectionComplete] at h2
  simp only [hss, sectionComplete] at h3
  obtain ⟨ms2, hms2⟩ :=
    parseEach_ok RawMaterial.parse ms (fun x hx => rawMaterial_parse_ok x (h2 x hx))
  obtain ⟨ss2, hss2⟩ :=
    parseEach_ok RawSource.parse ss (fun x hx => rawSource_parse_ok x (h3 x hx))
  have hr : r = ⟨some su, some ms, some ss, some bs, some gs, some sv⟩ := by
    cases r
    simp only [RawSimulation.mk.injEq]
    exact ⟨hsu, hms, hss, hbs, hgs, hsv⟩
  rw [hr, from_json_somes, hms2, hss2]
  rfl

/-- Claim C5 (witness): the amended statement applied to the numerically
invalid but structurally complete `badDoc`. -/
theorem c5_witness : exceptOk (Simulation.from_json badDoc) = true :=
  c5_amended_no_numeric_validation badDoc
    (by simp [RawSimulation.complete, sectionComplete, badDoc,
      RawMaterial.complete, RawSource.complete])

/-- All six faces held at the same temperature `T0`. -/
def bcsAll (T0 : ℚ) : List BoundarySettings :=
  [⟨"xmin", T0⟩, ⟨"xmax", T0⟩, ⟨"ymin", T0⟩, ⟨"ymax", T0⟩,
   ⟨"zmin", T0⟩, ⟨"zmax", T0⟩]

/-- The initial field of the uniform-boundary scenario on the 3 x 3 x 3
grid: zeros with all six face planes stamped to `T0`. -/
def c7Init (T0 : ℚ) : Fld := applyBCs 3 3 3 (bcMap (bcsAll T0)) zeroField

lemma c7Init_eq (T0 : ℚ) (i j k : ℕ) :
    c7Init T0 i j k
      = if i = 0 ∨ i = 2 ∨ j = 0 ∨ j = 2 ∨ k = 0 ∨ k = 2 then T0 else 0 := by
  simp only [c7Init, applyBCs, bcMap, bcFold, bcsAll, List.foldl_cons,
    List.foldl_nil, bcStep, applyFace, stampX, stampY, stampZ, zeroField]
  norm_num
  simp only [stampX, stampY, stampZ, zeroField]
  split_ifs <;> first | rfl | omega

lemma c7_sweep_eq (T0 : ℚ) (i j k : ℕ) :
    sweepLoop 1 1 zeroField 3 3 3 (c7Init T0) i j k
      = if i = 1 ∧ j = 1 ∧ k = 1 then T0 else c7Init T0 i j k := by
  rw [sweepLoop_eq]
  by_cases h : isInterior 3 3 3 i j k
  · have hijk : i = 1 ∧ j = 1 ∧ k = 1 := by unfold isInterior at h; omega
    obtain ⟨rfl, rfl, rfl⟩ := hijk
    rw [if_pos h, if_pos ⟨rfl, rfl, rfl⟩, jacobiUpdateCell]
    simp only [c7Init_eq]
    norm_num [zeroField]
    ring
  · have hn : ¬(i = 1 ∧ j = 1 ∧ k = 1) := by unfold isInterior at h; omega
    rw [if_neg h, if_neg hn]

lemma c7_second_sweep (T0 : ℚ) :
    sweepLoop 1 1 zeroField 3 3 3 (sweepLoop 1 1 zeroField 3 3 3 (c7Init T0))
      = sweepLoop 1 1 zeroField 3 3 3 (c7Init T0) := by
  funext i j k
  rw [sweepLoop_eq]
  by_cases h : isInterior 3 3 3 i j k
  · rw [if_pos h]
    have hijk : i = 1 ∧ j = 1 ∧ k = 1 := by unfold isInterior at h; omega
    obtain ⟨rfl, rfl, rfl⟩ := hijk
    rw [jacobiUpdateCell]
    simp only [c7_sweep_eq, c7Init_eq]
    norm_num [zeroField]
    ring
  · rw [if_neg h]

lemma c7_first_error (T0 : ℚ) (h0 : 0 ≤ T0) :
    maxAbsDiff 3 3 3 (sweepLoop 1 1 zeroField 3 3 3 (c7Init T0)) (c7Init T0)
      = T0 := by
  apply le_antisymm
  · apply maxAbsDiff_le h0
    intro i j k _ _ _
    rw [c7_sweep_eq]
    by_cases h : i = 1 ∧ j = 1 ∧ k = 1
    · obtain ⟨rfl, rfl, rfl⟩ := h
      rw [if_pos ⟨rfl, rfl, rfl⟩, c7Init_eq]
      norm_num
      rw [abs_of_nonneg h0]
    · rw [if_neg h]
      simpa using h0
  · have hb := abs_sub_le_maxAbsDiff (sweepLoop 1 1 zeroField 3 3 3 (c7Init T0))
      (c7Init T0) (show 1 < 3 by norm_num) (show 1 < 3 by norm_num)
      (show 1 < 3 by norm_num)
    rw [c7_sweep_eq, if_pos ⟨rfl, rfl, rfl⟩, c7Init_eq] at hb
    norm_num at hb
    rwa [abs_of_nonneg h0] at hb

/-- Claim C7 (counterexample): with all six faces at `T0 = 100` and zero
sources on the 3 x 3 x 3 grid, the measured error of the first sweep is
100, not zero: the initial field is not constant (the interior cell starts
at 0), so the first sweep moves it by `T0`. -/
theorem c7_counterexample :
    maxAbsDiff 3 3 3 (sweepLoop 1 1 zeroField 3 3 3 (c7Init 100)) (c7Init 100)
      = 100 ∧ ((100 : ℚ) ≠ 0) :=
  ⟨c7_first_error 100 (by norm_num), by norm_num⟩

/-- Claim C7 (amended): zero sources, all six faces at the same
`T0 >= tol > 0`, minimal 3 x 3 x 3 grid: the first sweep already makes the
whole field `T0`, but its error is `T0` (the interior cell moved from 0),
not zero, so the break fires on the second sweep: convergence is reported
at iteration index 1 and the final field equals `T0` at every grid cell. -/
theorem c7_amended_uniform_boundary (T0 tol : ℚ) (h1 : 0 < tol) (h2 : tol ≤ T0)
    (m : ℕ) (hm : 2 ≤ m) :
    (jacobiRun 1 1 tol zeroField (c7Init T0) 3 3 3 m).converged = true ∧
    (jacobiRun 1 1 tol zeroField (c7Init T0) 3 3 3 m).it = 1 ∧
    (∀ i j k, i < 3 → j < 3 → k < 3 →
      (jacobiRun 1 1 tol zeroField (c7Init T0) 3 3 3 m).T i j k = T0) ∧
    maxAbsDiff 3 3 3 (sweepLoop 1 1 zeroField 3 3 3 (c7Init T0)) (c7Init T0)
      = T0 := by
  have h0 : 0 ≤ T0 := le_trans h1.le h2
  have herr1 := c7_first_error T0 h0
  obtain ⟨n, rfl⟩ : ∃ n, m = n + 2 := ⟨m - 2, by omega⟩
  have hrun : jacobiRun 1 1 tol zeroField (c7Init T0) 3 3 3 (n + 2)
      = ⟨sweepLoop 1 1 zeroField 3 3 3 (c7Init T0), 1, true⟩ := by
    rw [jacobiRun, runAux, if_neg (by rw [herr1]; exact not_lt.mpr h2), runAux,
      c7_second_sweep, maxAbsDiff_self, if_pos h1]
  rw [hrun]
  refine ⟨rfl, rfl, ?_, herr1⟩
  intro i j k hi hj hk
  show sweepLoop 1 1 zeroField 3 3 3 (c7Init T0) i j k = T0
  rw [c7_sweep_eq]
  by_cases h : i = 1 ∧ j = 1 ∧ k = 1
  · rw [if_pos h]
  · have hface : i = 0 ∨ i = 2 ∨ j = 0 ∨ j = 2 ∨ k = 0 ∨ k = 2 := by omega
    rw [if_neg h, c7Init_eq, if_pos hface]

/-- Claim C7 (witness): the amended statement at `T0 = 100`,
`tol = 1/1000000`, `max_iter = 2`, with the field conclusion instantiated
at the interior cell. -/
theorem c7_witness :
    (jacobiRun 1 1 (1/1000000) zeroField (c7Init 100) 3 3 3 2).converged = true ∧
    (jacobiRun 1 1 (1/1000000) zeroField (c7Init 100) 3 3 3 2).it = 1 ∧
    (jacobiRun 1 1 (1/1000000) zeroField (c7Init 100) 3 3 3 2).T 1 1 1 = 100 ∧
    maxAbsDiff 3 3 3 (sweepLoop 1 1 zeroField 3 3 3 (c7Init 100)) (c7Init 100)
      = 100 := by
  obtain ⟨hc, hit, hT, herr⟩ := c7_amended_uniform_boundary 100 (1/1000000)
    (by norm_num) (by norm_num) 2 (by norm_num)
  exact ⟨hc, hit, hT 1 1 1 (by norm_num) (by norm_num) (by norm_num), herr⟩

end HeatConduction
